import Mathlib

/-!
Verification development for the UmaCore quota reconciliation engine,
bomb escalation state machine and scrape-lock guard.

The Lean definitions below are shallow embeddings of the Python sources:
  * src/models/member.py, quota_history.py, quota_requirement.py, bomb.py
  * src/services/quota_calculator.py, bomb_manager.py, scrape_lock_manager.py
  * src/config/database.py (schema facts only)

Database tables are lists of rows; `datetime.date` is the `Date` structure
with proleptic-Gregorian day arithmetic; Python exceptions are an explicit
`PyErr` error type threaded through `Except`.
-/

namespace UmaCore

/-! ## Calendar dates (embedding of Python `datetime.date` arithmetic) -/

structure Date where
  year : Int
  month : Int
  day : Int
deriving DecidableEq, Repr

/-- Gregorian leap-year rule, as used by `datetime.date` (for the years
`1 ≤ y` that a valid date can carry, `%` agrees with Python's `%`). -/
def isLeap (y : Int) : Bool :=
  decide ((y % 4 = 0 ∧ y % 100 ≠ 0) ∨ y % 400 = 0)

/-- Number of days in month `m` of year `y` (months 1..12). -/
def daysInMonth (y m : Int) : Int :=
  if m = 2 then (if isLeap y then 29 else 28)
  else if m = 4 ∨ m = 6 ∨ m = 9 ∨ m = 11 then 30
  else 31

/-- Days in year `y` strictly before month `m`. -/
def daysBeforeMonth (y m : Int) : Int :=
  (if 1 < m then daysInMonth y 1 else 0) +
  (if 2 < m then daysInMonth y 2 else 0) +
  (if 3 < m then daysInMonth y 3 else 0) +
  (if 4 < m then daysInMonth y 4 else 0) +
  (if 5 < m then daysInMonth y 5 else 0) +
  (if 6 < m then daysInMonth y 6 else 0) +
  (if 7 < m then daysInMonth y 7 else 0) +
  (if 8 < m then daysInMonth y 8 else 0) +
  (if 9 < m then daysInMonth y 9 else 0) +
  (if 10 < m then daysInMonth y 10 else 0) +
  (if 11 < m then daysInMonth y 11 else 0)

/-- Rata-die style day number; differences of `ratDie` embed
`(d2 - d1).days` of `datetime.date`. -/
def ratDie (d : Date) : Int :=
  365 * (d.year - 1) + (d.year - 1) / 4 - (d.year - 1) / 100 +
    (d.year - 1) / 400 + daysBeforeMonth d.year d.month + d.day

/-- Structural well-formedness of a date (no upper year cap). -/
def DateOK (d : Date) : Prop :=
  1 ≤ d.year ∧ 1 ≤ d.month ∧ d.month ≤ 12 ∧ 1 ≤ d.day ∧ d.day ≤ daysInMonth d.year d.month

instance (d : Date) : Decidable (DateOK d) := by
  unfold DateOK; infer_instance

/-- The check `datetime.date.__new__` performs (MINYEAR = 1, MAXYEAR = 9999). -/
def validDate (y m d : Int) : Bool :=
  decide (1 ≤ y ∧ y ≤ 9999 ∧ 1 ≤ m ∧ m ≤ 12 ∧ 1 ≤ d ∧ d ≤ daysInMonth y m)

/-- Python exceptions that the embedded code can raise. -/
inductive PyErr where
  | valueError
  | indexError
  | typeError
deriving DecidableEq, Repr

/-- Embeds `datetime.date(y, m, d)`: raises ValueError on an out-of-range component. -/
def mkDate (y m d : Int) : Except PyErr Date :=
  if validDate y m d then .ok ⟨y, m, d⟩ else .error .valueError

/-- Embeds `d + timedelta(days=1)`. -/
def nextDay (d : Date) : Date :=
  if d.day < daysInMonth d.year d.month then ⟨d.year, d.month, d.day + 1⟩
  else if d.month < 12 then ⟨d.year, d.month + 1, 1⟩
  else ⟨d.year + 1, 1, 1⟩

/-- Python `date` comparison `a < b` (lexicographic on year, month, day). -/
def dateLt (a b : Date) : Bool :=
  decide (a.year < b.year ∨ (a.year = b.year ∧ a.month < b.month) ∨
    (a.year = b.year ∧ a.month = b.month ∧ a.day < b.day))

/-- Python `date` comparison `a <= b`. -/
def dateLe (a b : Date) : Bool :=
  dateLt a b || decide (a = b)

/-! ## Python list indexing

`daily_fans[i]` with Python semantics: negative indices count from the end,
out-of-range indices raise IndexError. -/

def pyGet (l : List Int) (i : Int) : Except PyErr Int :=
  if 0 ≤ i then
    match l.get? i.toNat with
    | some v => .ok v
    | none => .error .indexError
  else
    let j : Int := (l.length : Int) + i
    if 0 ≤ j then
      match l.get? j.toNat with
      | some v => .ok v
      | none => .error .indexError
    else .error .indexError

/-! ## Data model rows (tables from config/database.py, row objects from
src/models). Surrogate keys are naturals. -/

/-- A row of `members` (src/models/member.py). -/
structure Member where
  member_id : Nat
  club_id : Nat
  trainer_id : Option String
  trainer_name : String
  join_date : Date
  is_active : Bool
  manually_deactivated : Bool
  last_seen : Date
deriving DecidableEq, Repr

/-- A row of `quota_history` (src/models/quota_history.py). -/
structure QuotaHistoryRow where
  member_id : Nat
  club_id : Nat
  date : Date
  cumulative_fans : Int
  expected_fans : Int
  deficit_surplus : Int
  days_behind : Int
deriving DecidableEq, Repr

/-- A row of `bombs` (table in config/database.py; the table carries a
`club_id` and a `last_countdown_update` column, even though the row object
in src/models/bomb.py selects neither). -/
structure BombRow where
  bomb_id : Nat
  member_id : Nat
  club_id : Nat
  activation_date : Date
  days_remaining : Int
  is_active : Bool
  deactivation_date : Option Date
  last_countdown_update : Option Date
deriving DecidableEq, Repr

/-- A row of `quota_requirements` (src/models/quota_requirement.py). -/
structure QuotaRequirementRow where
  club_id : Nat
  effective_date : Date
  daily_quota : Int
deriving DecidableEq, Repr

/-- The fields of `clubs` that the engine reads (src/models/club.py). -/
structure Club where
  club_id : Nat
  daily_quota : Int
  bomb_trigger_days : Int
  bomb_countdown_days : Int
deriving DecidableEq, Repr

/-- The database state the reconciliation and bomb passes read and write. -/
structure DB where
  clubs : List Club
  members : List Member
  history : List QuotaHistoryRow
  bombs : List BombRow
  requirements : List QuotaRequirementRow
  nextMemberId : Nat
deriving DecidableEq, Repr

/-! ## Member operations (src/models/member.py) -/

/-- Embeds `Member.activate`: sets `is_active = TRUE` and clears
`manually_deactivated` (member.py lines 127-137). -/
def Member.activate (m : Member) : Member :=
  { m with is_active := true, manually_deactivated := false }

/-- Embeds `Member.deactivate(manual)`: sets `is_active = FALSE` and
`manually_deactivated = manual` (member.py lines 111-125). -/
def Member.deactivate (m : Member) (manual : Bool) : Member :=
  { m with is_active := false, manually_deactivated := manual }

/-- Embeds `UPDATE members ... WHERE member_id = $n`: replace every row whose
`member_id` matches the updated object. -/
def updateMember (db : DB) (m : Member) : DB :=
  { db with members := db.members.map (fun x => if x.member_id = m.member_id then m else x) }

/-- Embeds `Member.get_by_trainer_id(club_id, trainer_id)`. -/
def getByTrainerId (db : DB) (club_id : Nat) (tid : String) : Option Member :=
  db.members.find? (fun m => m.club_id == club_id && m.trainer_id == some tid)

/-- Embeds `Member.get_by_name(club_id, trainer_name)`. -/
def getByName (db : DB) (club_id : Nat) (name : String) : Option Member :=
  db.members.find? (fun m => m.club_id == club_id && m.trainer_name == name)

/-- Embeds `Member.get_all_active(club_id)` (the `ORDER BY trainer_name` only
affects iteration order; we keep table order). -/
def getAllActive (db : DB) (club_id : Nat) : List Member :=
  db.members.filter (fun m => m.club_id == club_id && m.is_active)

/-- Embeds `Member.create(club_id, trainer_name, join_date, trainer_id)`: inserts
with the table defaults `is_active = TRUE`, `manually_deactivated = FALSE`
and `last_seen = join_date`. -/
def createMember (db : DB) (club_id : Nat) (name : String) (join_date : Date)
    (tid : Option String) : DB × Member :=
  let m : Member := ⟨db.nextMemberId, club_id, tid, name, join_date, true, false, join_date⟩
  ({ db with members := db.members ++ [m], nextMemberId := db.nextMemberId + 1 }, m)

/-! ## Quota requirements (src/models/quota_requirement.py) -/

/-- Row with the greatest `effective_date` (SQL `ORDER BY effective_date
DESC LIMIT 1`; ties are unspecified in SQL, we keep the first listed). -/
def maxByEffectiveDate (l : List QuotaRequirementRow) : Option QuotaRequirementRow :=
  l.foldl (fun acc r =>
    match acc with
    | none => some r
    | some b => if dateLt b.effective_date r.effective_date then some r else some b) none

/-- Embeds `QuotaRequirement.get_quota_for_date(club_id, check_date)`: most recent
requirement with `effective_date <= check_date`, else the club's
`daily_quota` default, else 1000000 when the club row is missing. -/
def getQuotaForDate (db : DB) (club_id : Nat) (check_date : Date) : Int :=
  match maxByEffectiveDate (db.requirements.filter
      (fun r => r.club_id == club_id && dateLe r.effective_date check_date)) with
  | some r => r.daily_quota
  | none =>
    match db.clubs.find? (fun c => c.club_id == club_id) with
    | some c => c.daily_quota
    | none => 1000000

/-! ## Quota history (src/models/quota_history.py) -/

/-- Embeds `QuotaHistory.create`: `INSERT ... ON CONFLICT (member_id, date) DO
UPDATE` — overwrites the four value columns of an existing row, else
appends. -/
def upsertHistory (db : DB) (row : QuotaHistoryRow) : DB :=
  if db.history.any (fun h => h.member_id == row.member_id && h.date == row.date) then
    { db with history := db.history.map (fun h =>
        if h.member_id == row.member_id && h.date == row.date then
          { h with cumulative_fans := row.cumulative_fans,
                   expected_fans := row.expected_fans,
                   deficit_surplus := row.deficit_surplus,
                   days_behind := row.days_behind }
        else h) }
  else { db with history := db.history ++ [row] }

/-- Insert into a list kept in decreasing-date order. -/
def insertByDateDesc (r : QuotaHistoryRow) : List QuotaHistoryRow → List QuotaHistoryRow
  | [] => [r]
  | x :: xs => if dateLt x.date r.date then r :: x :: xs else x :: insertByDateDesc r xs

/-- Embeds `ORDER BY date DESC` (dates are unique per member, so no tie issue). -/
def sortByDateDesc (l : List QuotaHistoryRow) : List QuotaHistoryRow :=
  l.foldr insertByDateDesc []

/-- Embeds `QuotaHistory.get_last_n_days(member_id, n)`. -/
def getLastNDays (db : DB) (member_id : Nat) (n : Nat) : List QuotaHistoryRow :=
  (sortByDateDesc (db.history.filter (fun h => h.member_id == member_id))).take n

/-- Embeds `QuotaHistory.get_latest_for_member(member_id)`. -/
def getLatestForMember (db : DB) (member_id : Nat) : Option QuotaHistoryRow :=
  (sortByDateDesc (db.history.filter (fun h => h.member_id == member_id))).head?

/-- Embeds `QuotaHistory.check_consecutive_behind_days(member_id, check_days)`:
the SQL counts the rows with `deficit_surplus < 0` among the most recent
`check_days` rows, gated on the most recent row being behind (quota_history.py
lines 87-112). -/
def checkConsecutiveBehindDays (db : DB) (member_id : Nat) (check_days : Int) : Int :=
  let recent := getLastNDays db member_id check_days.toNat
  match recent with
  | [] => 0
  | h :: _ =>
    if h.deficit_surplus < 0 then
      ((recent.filter (fun r => r.deficit_surplus < 0)).length : Int)
    else 0

/-! ## Bombs (src/models/bomb.py — note this model file is the pre-multi-club
version: `create` takes no `club_id`, `decrement_days` takes no date). -/

/-- Embeds `Bomb.decrement_days(self)` (bomb.py lines 76-86): decrements when
positive; it neither receives nor records any countdown date. -/
def decrementDays (b : BombRow) : BombRow :=
  if b.days_remaining > 0 then { b with days_remaining := b.days_remaining - 1 } else b

/-- Embeds `Bomb.get_active_for_member(member_id)` (existence only). -/
def hasActiveBomb (db : DB) (member_id : Nat) : Bool :=
  db.bombs.any (fun b => b.member_id == member_id && b.is_active)

/-! ## Scraped input (one entry of the `scraped_data` dict) -/

/-- One value of `scraped_data`: `{name, trainer_id, fans[], join_day}`. -/
structure ScrapedMember where
  name : String
  trainer_id : Option String
  fans : List Int
  join_day : Int
deriving DecidableEq, Repr

/-- Embeds `scraped_data` is a Python dict; we embed it as its (insertion-ordered)
association list of key/value pairs. -/
abbrev ScrapedData := List (String × ScrapedMember)

/-- First-match association lookup (`previous_totals[key]`). -/
def dictLookup (l : List (String × Int)) (k : String) : Option Int :=
  (l.find? (fun p => p.1 == k)).map (fun p => p.2)

/-- Python dict insert: overwrite in place, else append. -/
def dictInsert (l : List (String × Int)) (k : String) (v : Int) : List (String × Int) :=
  if l.any (fun p => p.1 == k) then l.map (fun p => if p.1 == k then (k, v) else p)
  else l ++ [(k, v)]

/-- Embeds `member.trainer_id if member.trainer_id else member.trainer_name`
(Python truthiness: `None` and the empty string both fall back). -/
def memberKeyOf (m : Member) : String :=
  match m.trainer_id with
  | some t => if t == "" then m.trainer_name else t
  | none => m.trainer_name

/-! ## QuotaCalculator (src/services/quota_calculator.py) -/

/-- Embeds `member_data["fans"][-1] if member_data["fans"] else 0`. -/
def lastFans (md : ScrapedMember) : Int :=
  match md.fans.getLast? with
  | some v => v
  | none => 0

/-- Effective start used by `calculate_expected_fans` and
`calculate_days_active_in_month` (quota_calculator.py lines 32-38). -/
def effectiveStart (member_join_date current_date : Date) : Date :=
  if member_join_date.year = current_date.year ∧ member_join_date.month = current_date.month then
    member_join_date
  else ⟨current_date.year, current_date.month, 1⟩

/-- The `for _ in range(day_count)` accumulation loop of
`calculate_expected_fans`. -/
def expectedFansLoop (db : DB) (club_id : Nat) : Nat → Date → Int
  | 0, _ => 0
  | n + 1, d => getQuotaForDate db club_id d + expectedFansLoop db club_id n (nextDay d)

/-- Embeds `QuotaCalculator.calculate_expected_fans(club_id, member_join_date,
current_date)` (quota_calculator.py lines 18-53). -/
def calculateExpectedFans (db : DB) (club_id : Nat) (member_join_date current_date : Date) : Int :=
  let start_date := effectiveStart member_join_date current_date
  let day_count : Int := (ratDie current_date - ratDie start_date) + 1
  expectedFansLoop db club_id day_count.toNat start_date

/-- Embeds `QuotaCalculator.calculate_days_active_in_month`. -/
def calculateDaysActiveInMonth (member_join_date current_date : Date) : Int :=
  ratDie current_date - ratDie (effectiveStart member_join_date current_date) + 1

/-- The `for history in recent_history: if < 0: +1 else break` loop of
`_calculate_days_behind`. -/
def leadNegCount : List QuotaHistoryRow → Nat
  | [] => 0
  | h :: t => if h.deficit_surplus < 0 then leadNegCount t + 1 else 0

/-- Embeds `QuotaCalculator._calculate_days_behind(member_id, current_deficit_surplus,
current_date)` (quota_calculator.py lines 293-317): looks at the last 10
stored rows, drops any dated `current_date` or later, and counts the streak
of behind days starting the count at 1. -/
def calculateDaysBehind (db : DB) (member_id : Nat) (current_deficit_surplus : Int)
    (current_date : Date) : Int :=
  if current_deficit_surplus ≥ 0 then 0
  else
    let recent_history := getLastNDays db member_id 10
    if recent_history = [] then 1
    else
      let filtered := recent_history.filter (fun h => dateLt h.date current_date)
      1 + (leadNegCount filtered : Int)

/-- Embeds `QuotaCalculator._detect_monthly_reset_from_scraped(scraped_data,
previous_totals)` (quota_calculator.py lines 100-128): flags a reset when
some scraped member with a previous total has `0 < current < previous * 0.5`.
The comparison `current_fans < previous_fans * 0.5` is carried out over the
integers as `2 * current_fans < previous_fans`, which is exactly equivalent
(halving an integer is exact; see `two_mul_lt_iff_lt_half`). -/
def detectMonthlyResetFromScraped (scraped_data : ScrapedData)
    (previous_totals : List (String × Int)) : Bool :=
  if previous_totals = [] then false
  else if scraped_data = [] then false
  else scraped_data.any (fun e =>
    match dictLookup previous_totals e.1 with
    | some previous_fans =>
      lastFans e.2 > 0 && decide (2 * lastFans e.2 < previous_fans)
    | none => false)

/-- Embeds `MAX(date) FROM quota_history WHERE club_id = $1`. -/
def maxClubHistoryDate (db : DB) (club_id : Nat) : Option Date :=
  (db.history.filter (fun h => h.club_id == club_id)).foldl
    (fun acc h =>
      match acc with
      | none => some h.date
      | some d => if dateLt d h.date then some h.date else some d) none

/-- Embeds `QuotaCalculator._get_previous_cumulative_totals(club_id)`: joins the
club's members with their history rows at the club-wide latest date and
builds the `key -> cumulative_fans` dict (row order in SQL is unspecified;
we fix members-then-rows order). -/
def getPreviousCumulativeTotals (db : DB) (club_id : Nat) : List (String × Int) :=
  match maxClubHistoryDate db club_id with
  | none => []
  | some dmax =>
    (db.members.filter (fun m => m.club_id == club_id)).foldl
      (fun acc m =>
        (db.history.filter (fun qh => qh.member_id == m.member_id && qh.date == dmax)).foldl
          (fun acc2 qh => dictInsert acc2 (memberKeyOf m) qh.cumulative_fans) acc) []

/-- The monthly-reset purge (quota_calculator.py lines 166-179): delete the
club's history, bombs and quota requirements, and clear the
`manually_deactivated` flag of the club's members. -/
def monthlyResetPurge (db : DB) (club_id : Nat) : DB :=
  { db with
    history := db.history.filter (fun h => ¬ h.club_id == club_id),
    bombs := db.bombs.filter (fun b => ¬ b.club_id == club_id),
    requirements := db.requirements.filter (fun r => ¬ r.club_id == club_id),
    members := db.members.map (fun m =>
      if m.club_id == club_id ∧ m.manually_deactivated then
        { m with manually_deactivated := false }
      else m) }

/-- Embeds `QuotaCalculator._auto_deactivate_missing_members(club_id,
scraped_trainer_ids)` (quota_calculator.py lines 130-144). -/
def autoDeactivateMissing (db : DB) (club_id : Nat) (scraped_keys : List String) : DB :=
  (getAllActive db club_id).foldl
    (fun acc m =>
      if scraped_keys.contains (memberKeyOf m) then acc
      else updateMember acc (m.deactivate false)) db

/-- Caller-supplied context of one reconciliation pass. -/
structure PassCtx where
  club_id : Nat
  current_date : Date
  current_day : Int
deriving DecidableEq, Repr

/-- Loop state: database plus `(new_members, updated_members)`. -/
structure LoopState where
  db : DB
  new_members : Nat
  updated_members : Nat
deriving DecidableEq, Repr

/-- Join-date inference for a new member (quota_calculator.py lines
226-238): a `join_day` beyond today's day-of-month belongs to the previous
month; `datetime.date` construction can raise ValueError. -/
def inferJoinDate (current_date : Date) (detected_join_day : Int) : Except PyErr Date :=
  if detected_join_day > current_date.day then
    if current_date.month = 1 then
      mkDate (current_date.year - 1) 12 detected_join_day
    else
      mkDate current_date.year (current_date.month - 1) detected_join_day
  else
    mkDate current_date.year current_date.month detected_join_day

/-- The decision the loop takes for a found, inactive member
(quota_calculator.py lines 249-255): `none` embeds the `continue` that
skips a manually deactivated member, otherwise the member is reactivated. -/
def reactivationStep (db : DB) (m : Member) : Option (DB × Member) :=
  if m.manually_deactivated then none
  else some (updateMember db (Member.activate m), Member.activate m)

/-- Tail of the loop body shared by all non-skipped members: update
`last_seen`, compute expectation, deficit and streak, and upsert the ledger
row (quota_calculator.py lines 257-283; `days_active` is computed only for
logging). -/
def processMemberTail (ctx : PassCtx) (db : DB) (m : Member) (cumulative_fans : Int) : DB :=
  let m1 := { m with last_seen := ctx.current_date }
  let db1 := updateMember db m1
  let expected_fans := calculateExpectedFans db1 ctx.club_id m1.join_date ctx.current_date
  let deficit_surplus := cumulative_fans - expected_fans
  let days_behind := calculateDaysBehind db1 m1.member_id deficit_surplus ctx.current_date
  upsertHistory db1
    ⟨m1.member_id, ctx.club_id, ctx.current_date, cumulative_fans,
      expected_fans, deficit_surplus, days_behind⟩

/-- Embeds the new-member block of the loop body (quota_calculator.py
lines 225-242): infer the join date (possibly raising ValueError), create
the member, then run the shared tail; both counters are incremented
(`updated_members += 1` at line 285 runs for new members too). -/
def processNewMember (ctx : PassCtx) (st : LoopState) (md : ScrapedMember)
    (cumulative_fans : Int) : Except PyErr LoopState :=
  match inferJoinDate ctx.current_date md.join_day with
  | .error err => .error err
  | .ok join_date =>
    let r := createMember st.db ctx.club_id md.name join_date md.trainer_id
    .ok ⟨processMemberTail ctx r.1 r.2 cumulative_fans,
          st.new_members + 1, st.updated_members + 1⟩

/-- Embeds lines 249-255 and the shared tail for a member that was found
with the possibly-renamed object `m1` against database `db1`. -/
def processFoundMember (ctx : PassCtx) (st : LoopState) (cumulative_fans : Int)
    (m1 : Member) (db1 : DB) : Except PyErr LoopState :=
  if m1.is_active then
    .ok ⟨processMemberTail ctx db1 m1 cumulative_fans,
          st.new_members, st.updated_members + 1⟩
  else
    match reactivationStep db1 m1 with
    | none => .ok ⟨db1, st.new_members, st.updated_members⟩
    | some r =>
      .ok ⟨processMemberTail ctx r.1 r.2 cumulative_fans,
            st.new_members, st.updated_members + 1⟩

/-- Embeds the existing-member block of the loop body (quota_calculator.py
lines 243-255): rename when the display name changed, then the
reactivation decision and the shared tail. -/
def processExistingMember (ctx : PassCtx) (st : LoopState) (md : ScrapedMember)
    (cumulative_fans : Int) (m0 : Member) : Except PyErr LoopState :=
  if m0.trainer_name ≠ md.name then
    processFoundMember ctx st cumulative_fans { m0 with trainer_name := md.name }
      (updateMember st.db { m0 with trainer_name := md.name })
  else
    processFoundMember ctx st cumulative_fans m0 st.db

/-- Embeds the day-index resolution with its bounds clamp
(quota_calculator.py lines 199-212): `current_day - 1`, clamped down to
the last index when it runs past the end of the array. -/
def clampedDayIndex (current_day : Int) (fans : List Int) : Int :=
  if current_day - 1 ≥ (fans.length : Int) then (fans.length : Int) - 1 else current_day - 1

/-- Embeds the member lookup of lines 219-223: by trainer id when one is
present and truthy, else by display name. -/
def lookupMember (db : DB) (club_id : Nat) (md : ScrapedMember) : Option Member :=
  match md.trainer_id with
  | some t => if t == "" then getByName db club_id md.name
              else getByTrainerId db club_id t
  | none => getByName db club_id md.name

/-- One iteration of the `for key, member_data in scraped_data.items()`
loop of `process_scraped_data` (quota_calculator.py lines 189-288). -/
def processOne (ctx : PassCtx) (st : LoopState) (e : String × ScrapedMember) :
    Except PyErr LoopState :=
  if e.2.fans = [] then .ok st
  else
    match pyGet e.2.fans (clampedDayIndex ctx.current_day e.2.fans) with
    | .error err => .error err
    | .ok cumulative_fans =>
      match lookupMember st.db ctx.club_id e.2 with
      | none => processNewMember ctx st e.2 cumulative_fans
      | some m0 => processExistingMember ctx st e.2 cumulative_fans m0

/-- The member loop: a per-member exception propagates immediately (there is
no try/except inside the loop), leaving the writes made so far in place. -/
def processLoop (ctx : PassCtx) (st : LoopState) :
    ScrapedData → LoopState × Option PyErr
  | [] => (st, none)
  | e :: rest =>
    match processOne ctx st e with
    | .ok st1 => processLoop ctx st1 rest
    | .error err => (st, some err)

/-- Embeds `QuotaCalculator.process_scraped_data(club_id, scraped_data,
current_date, current_day)` (quota_calculator.py lines 146-291): reset
detection and purge, auto-deactivation of absent members, then the
per-member loop. -/
def processScrapedData (db : DB) (club_id : Nat) (scraped_data : ScrapedData)
    (current_date : Date) (current_day : Int) : LoopState × Option PyErr :=
  let previous_totals := getPreviousCumulativeTotals db club_id
  let db1 :=
    if detectMonthlyResetFromScraped scraped_data previous_totals then
      monthlyResetPurge db club_id
    else db
  let scraped_trainer_ids := scraped_data.map (fun e => e.1)
  let db2 := autoDeactivateMissing db1 club_id scraped_trainer_ids
  processLoop ⟨club_id, current_date, current_day⟩ ⟨db2, 0, 0⟩ scraped_data

/-! ## BombManager.check_and_activate_bombs (src/services/bomb_manager.py
lines 18-52).

The source calls `Bomb.create(member_id=..., club_id=..., activation_date=...,
days_remaining=...)`, but `Bomb.create` in src/models/bomb.py accepts only
`(member_id, activation_date, days_remaining)` (and its INSERT omits the
NOT NULL `bombs.club_id` column), so reaching the creation branch raises
TypeError. -/

def activateBombsLoop (db : DB) (club : Club) (acc : List BombRow) :
    List Member → DB × Except PyErr (List BombRow)
  | [] => (db, .ok acc)
  | m :: rest =>
    if hasActiveBomb db m.member_id then activateBombsLoop db club acc rest
    else
      let consecutive_days := checkConsecutiveBehindDays db m.member_id club.bomb_trigger_days
      if consecutive_days ≥ club.bomb_trigger_days then
        (db, .error .typeError)
      else activateBombsLoop db club acc rest

def checkAndActivateBombs (db : DB) (club : Club) : DB × Except PyErr (List BombRow) :=
  activateBombsLoop db club [] (getAllActive db club.club_id)

/-! ## ScrapeLockManager (src/services/scrape_lock_manager.py) -/

/-- A row of `scrape_locks` (`club_id` is the primary key); `locked_at` is
an abstract timestamp in minutes. -/
structure LockRow where
  club_id : Nat
  locked_at : Int
  locked_by : String
deriving DecidableEq, Repr

/-- Embeds `LOCK_TIMEOUT_MINUTES = 30`. -/
def lockTimeoutMinutes : Int := 30

/-- Embeds `ScrapeLockManager._cleanup_stale_locks()` (lines 124-142): delete every
lock, for any club, with `locked_at < now - 30 minutes`. -/
def cleanupStaleLocks (locks : List LockRow) (now : Int) : List LockRow :=
  locks.filter (fun l => ¬ l.locked_at < now - lockTimeoutMinutes)

/-- Embeds `ScrapeLockManager.acquire_lock(club_id, locked_by)` (lines 20-54):
cleanup, then `INSERT ... ON CONFLICT (club_id) DO NOTHING RETURNING`;
a surviving row for the club means `False` ("busy"), not an exception. -/
def acquireLock (locks : List LockRow) (club_id : Nat) (locked_by : String) (now : Int) :
    List LockRow × Bool :=
  let cleaned := cleanupStaleLocks locks now
  if cleaned.any (fun l => l.club_id == club_id) then (cleaned, false)
  else (cleaned ++ [⟨club_id, now, locked_by⟩], true)

/-- Embeds `ScrapeLockManager.release_lock(club_id)`. -/
def releaseLock (locks : List LockRow) (club_id : Nat) : List LockRow :=
  locks.filter (fun l => ¬ l.club_id == club_id)

/-! ## Concrete states used by the claim theorems and witnesses -/

/-- A club with the default quota, trigger 3 and countdown 7. -/
def clubA : Club := ⟨0, 1000000, 3, 7⟩

/-- A club whose bomb trigger is a single behind day. -/
def clubQuick : Club := ⟨0, 1000000, 1, 7⟩

/-- State for the reset scenario: one active member with a stored total of
1000, one manually deactivated member. -/
def dbResetScenario : DB :=
  { clubs := [clubA],
    members := [⟨1, 0, some "a", "A", ⟨2025, 6, 1⟩, true, false, ⟨2025, 6, 9⟩⟩,
                ⟨2, 0, some "m", "M", ⟨2025, 6, 1⟩, false, true, ⟨2025, 6, 5⟩⟩],
    history := [⟨1, 0, ⟨2025, 6, 9⟩, 1000, 0, 1000, 0⟩],
    bombs := [],
    requirements := [],
    nextMemberId := 3 }

/-- Scrape in which both members reappear and member A's cumulative total
collapsed from 1000 to 100, which triggers reset detection. -/
def sdResetScenario : ScrapedData :=
  [("a", ⟨"A", some "a", [100], 1⟩), ("m", ⟨"M", some "m", [100], 1⟩)]

/-- State holding only a manually deactivated member and no history. -/
def dbManualOnly : DB :=
  { clubs := [clubA],
    members := [⟨2, 0, some "m", "M", ⟨2025, 6, 1⟩, false, true, ⟨2025, 6, 5⟩⟩],
    history := [],
    bombs := [],
    requirements := [],
    nextMemberId := 3 }

/-- Scrape in which the manually deactivated member reappears. -/
def sdManualOnly : ScrapedData := [("m", ⟨"M", some "m", [100], 1⟩)]

/-- Ten consecutive behind days for member 1, dates 2025-06-01 .. 06-10. -/
def histTenBehind : List QuotaHistoryRow :=
  (List.range 10).map (fun i => ⟨1, 0, ⟨2025, 6, (i : Int) + 1⟩, 0, 0, -1, 0⟩)

/-- State for the idempotence scenario: one member, ten behind days. -/
def dbTenBehind : DB :=
  { clubs := [clubA],
    members := [⟨1, 0, some "a", "A", ⟨2025, 6, 1⟩, true, false, ⟨2025, 6, 10⟩⟩],
    history := histTenBehind,
    bombs := [],
    requirements := [],
    nextMemberId := 2 }

/-- Scrape reporting 5 cumulative fans for member A. -/
def sdOneMember : ScrapedData := [("a", ⟨"A", some "a", [5], 1⟩)]

/-- Empty-roster state. -/
def dbEmpty : DB :=
  { clubs := [clubA], members := [], history := [], bombs := [], requirements := [],
    nextMemberId := 1 }

/-- Scrape whose first entry carries `join_day = 31` while the effective
date is March 1, so the inferred join date would be February 31. -/
def sdBadJoinDay : ScrapedData :=
  [("a", ⟨"A", some "a", [5], 31⟩), ("b", ⟨"B", some "b", [5], 1⟩)]

/-- State with a schedule entry of 2000000 effective June 15. -/
def dbMidMonthRaise : DB :=
  { clubs := [clubA], members := [], history := [], bombs := [],
    requirements := [⟨0, ⟨2025, 6, 15⟩, 2000000⟩], nextMemberId := 1 }

/-- State for the activation scenario: one active member one day behind,
no bombs. -/
def dbOneBehind : DB :=
  { clubs := [clubQuick],
    members := [⟨1, 0, some "a", "A", ⟨2025, 6, 1⟩, true, false, ⟨2025, 6, 10⟩⟩],
    history := [⟨1, 0, ⟨2025, 6, 10⟩, 0, 1, -1, 1⟩],
    bombs := [],
    requirements := [],
    nextMemberId := 2 }

/-- An active bomb with a full 7-day countdown. -/
def bombSeven : BombRow := ⟨1, 1, 0, ⟨2025, 6, 1⟩, 7, true, none, none⟩

/-! ## Spec-level predicates used in the claim statements -/

/-- Claim C1 invariant: every row of member `mid` is manually deactivated
and inactive. -/
def ManualFlagsHold (db : DB) (mid : Nat) : Prop :=
  ∀ m ∈ db.members, m.member_id = mid → m.manually_deactivated = true ∧ m.is_active = false

instance (db : DB) (mid : Nat) : Decidable (ManualFlagsHold db mid) := by
  unfold ManualFlagsHold
  exact List.decidableBAll _ _

/-- Internal invariant used to carry claim C1 through a pass: the manual
flags hold and `mid` is an already-allocated surrogate id. -/
def ManualSafe (db : DB) (mid : Nat) : Prop :=
  ManualFlagsHold db mid ∧ mid < db.nextMemberId

/-- Claim C8, spelled out for one acquisition: stale rows (older than the
30-minute window) and only they are purged; acquisition succeeds iff no
row for the club survived; success inserts the caller's row, failure is
the value `false` with the table left as purged; at most one row per club
remains. -/
def AcquireLockSpec (locks : List LockRow) (club_id : Nat) (locked_by : String)
    (now : Int) : Prop :=
  (∀ l ∈ locks,
      l ∈ cleanupStaleLocks locks now ↔ ¬ l.locked_at < now - lockTimeoutMinutes) ∧
  ((acquireLock locks club_id locked_by now).2 = true ↔
      ∀ l ∈ cleanupStaleLocks locks now, l.club_id ≠ club_id) ∧
  ((acquireLock locks club_id locked_by now).2 = true →
      (⟨club_id, now, locked_by⟩ : LockRow) ∈ (acquireLock locks club_id locked_by now).1) ∧
  ((acquireLock locks club_id locked_by now).2 = false →
      (acquireLock locks club_id locked_by now).1 = cleanupStaleLocks locks now) ∧
  ((acquireLock locks club_id locked_by now).1.map LockRow.club_id).Nodup

/-- Claim C4 (amended), spelled out for one member and one effective date:
re-running `_calculate_days_behind` after the first run's upsert yields
`min` of the first count and 10 (the 10-row window of the second run now
holds the row for the effective date itself, which the date filter then
drops), and a second upsert of the same `(member, date)` key overwrites in
place, leaving the multiset of row keys unchanged. -/
def RerunDaysBehindSpec (db : DB) (mid club_id : Nat) (cf ef ds : Int) (cur : Date)
    (row2 : QuotaHistoryRow) : Prop :=
  calculateDaysBehind
      (upsertHistory db ⟨mid, club_id, cur, cf, ef, ds, calculateDaysBehind db mid ds cur⟩)
      mid ds cur
    = min (calculateDaysBehind db mid ds cur) 10 ∧
  (upsertHistory
      (upsertHistory db ⟨mid, club_id, cur, cf, ef, ds, calculateDaysBehind db mid ds cur⟩)
      row2).history.map (fun h => (h.member_id, h.date)) =
    (upsertHistory db ⟨mid, club_id, cur, cf, ef, ds,
      calculateDaysBehind db mid ds cur⟩).history.map (fun h => (h.member_id, h.date))

/-! ## Date arithmetic lemmas -/

lemma dateLt_irrefl (a : Date) : dateLt a a = false := by
  simp [dateLt]

lemma dateLt_asymm {a b : Date} (h : dateLt a b = true) : dateLt b a = false := by
  simp only [dateLt, decide_eq_true_eq, decide_eq_false_iff_not] at h ⊢
  omega

lemma dateLt_ne {a b : Date} (h : dateLt a b = true) : a ≠ b := by
  rintro rfl
  rw [dateLt_irrefl] at h
  exact Bool.false_ne_true h

lemma daysInMonth_pos (y m : Int) : 1 ≤ daysInMonth y m := by
  unfold daysInMonth
  split_ifs <;> omega

lemma daysBeforeMonth_succ {y m : Int} (h1 : 1 ≤ m) (h2 : m ≤ 11) :
    daysBeforeMonth y (m + 1) = daysBeforeMonth y m + daysInMonth y m := by
  interval_cases m <;> simp [daysBeforeMonth]

lemma daysInMonth_feb (y : Int) :
    daysInMonth y 2 = if isLeap y then 29 else 28 := by
  norm_num [daysInMonth]

/-- One `nextDay` step preserves well-formedness and advances `ratDie` by 1. -/
lemma nextDay_ok_ratDie {d : Date} (h : DateOK d) :
    DateOK (nextDay d) ∧ ratDie (nextDay d) = ratDie d + 1 := by
  obtain ⟨hy, hm1, hm2, hd1, hd2⟩ := h
  unfold nextDay
  split_ifs with h1 h2
  · refine ⟨⟨hy, hm1, hm2, ?_, ?_⟩, ?_⟩
    · dsimp only; omega
    · dsimp only; omega
    · unfold ratDie; dsimp only; ring
  · refine ⟨⟨hy, ?_, ?_, ?_, ?_⟩, ?_⟩
    · dsimp only; omega
    · dsimp only; omega
    · dsimp only; omega
    · dsimp only; exact daysInMonth_pos _ _
    · unfold ratDie
      dsimp only
      rw [daysBeforeMonth_succ hm1 (by omega)]
      omega
  · refine ⟨⟨?_, ?_, ?_, ?_, ?_⟩, ?_⟩
    · dsimp only; omega
    · dsimp only; omega
    · dsimp only; omega
    · dsimp only; omega
    · dsimp only; exact daysInMonth_pos _ _
    · have hm12 : d.month = 12 := by omega
      have h31 : d.day = 31 := by
        have : daysInMonth d.year 12 = 31 := by norm_num [daysInMonth]
        rw [hm12] at hd2 h1
        omega
      unfold ratDie
      dsimp only
      rw [hm12, h31]
      unfold daysBeforeMonth
      norm_num [daysInMonth, daysInMonth_feb]
      by_cases hl : isLeap d.year = true
      · rw [hl]
        simp only [isLeap, decide_eq_true_eq] at hl
        simp only [if_true]
        rcases hl with ⟨h4, h100⟩ | h400 <;> omega
      · rw [Bool.not_eq_true] at hl
        rw [hl]
        simp only [isLeap, decide_eq_false_iff_not] at hl
        push_neg at hl
        simp only [Bool.false_eq_true, if_false]
        omega

lemma nextDay_iterate_ratDie {d : Date} (h : DateOK d) (i : Nat) :
    DateOK (nextDay^[i] d) ∧ ratDie (nextDay^[i] d) = ratDie d + i := by
  induction i with
  | zero => simpa using h
  | succ n ih =>
    obtain ⟨hok, hr⟩ := ih
    obtain ⟨hok2, hr2⟩ := nextDay_ok_ratDie hok
    rw [Function.iterate_succ_apply']
    exact ⟨hok2, by rw [hr2, hr]; push_cast; ring⟩

/-! ## Claim C2 (bomb countdown once per day) -/

/-- C2: the claim states `days_remaining` decreases by at most 1 per
calendar day because `Bomb.decrement_days` tracks a per-bomb last-countdown
date and no-ops on a repeat. The code has no such tracking: running the
countdown twice on the same bomb (as two same-day pipeline runs do)
decrements twice, 7 to 5, and `decrement_days` never touches the
`last_countdown_update` column. -/
theorem claim_C2_countdown_not_once_per_day :
    (decrementDays bombSeven).days_remaining = 6 ∧
    (decrementDays (decrementDays bombSeven)).days_remaining = 5 ∧
    ∀ b : BombRow, (decrementDays b).last_countdown_update = b.last_countdown_update := by
  refine ⟨by decide, by decide, ?_⟩
  intro b
  unfold decrementDays
  split_ifs <;> rfl

/-! ## Claim C3 (bomb activation at the threshold) -/

/-- C3: in a state where the member meets the activation threshold (one
behind day against a trigger of one) and holds no active bomb, the
activation pass raises TypeError instead of creating a bomb — the manager
passes `club_id` to a `Bomb.create` that does not accept it — and the bomb
table is left unchanged. -/
theorem claim_C3_activation_raises_type_error :
    checkConsecutiveBehindDays dbOneBehind 1 clubQuick.bomb_trigger_days = 1 ∧
    (1 : Int) ≥ clubQuick.bomb_trigger_days ∧
    hasActiveBomb dbOneBehind 1 = false ∧
    checkAndActivateBombs dbOneBehind clubQuick = (dbOneBehind, .error .typeError) := by
  refine ⟨by decide, by decide, by decide, by rfl⟩

/-! ## Claim C9 (entries with empty daily values are skipped) -/

/-- C9: an entry of `scraped_data` whose `fans` list is empty is skipped
without raising: the loop state — database, new-member count and
updated-member count — is unchanged, and processing continues with the
remaining entries exactly as if the entry were absent. -/
theorem claim_C9_empty_fans_skipped (ctx : PassCtx) (st : LoopState) (k : String)
    (md : ScrapedMember) (rest : ScrapedData) (h : md.fans = []) :
    processOne ctx st (k, md) = .ok st ∧
    processLoop ctx st ((k, md) :: rest) = processLoop ctx st rest := by
  have h1 : processOne ctx st (k, md) = .ok st := by
    unfold processOne
    simp [h]
  refine ⟨h1, ?_⟩
  simp only [processLoop]
  rw [h1]

/-- Witness for C9 at a concrete empty-fans entry. -/
theorem claim_C9_witness :
    (⟨"N", none, [], 1⟩ : ScrapedMember).fans = [] ∧
    (processOne ⟨0, ⟨2025, 6, 10⟩, 1⟩ ⟨dbEmpty, 0, 0⟩ ("n", ⟨"N", none, [], 1⟩) =
        .ok ⟨dbEmpty, 0, 0⟩ ∧
      processLoop ⟨0, ⟨2025, 6, 10⟩, 1⟩ ⟨dbEmpty, 0, 0⟩ [("n", ⟨"N", none, [], 1⟩)] =
        processLoop ⟨0, ⟨2025, 6, 10⟩, 1⟩ ⟨dbEmpty, 0, 0⟩ []) :=
  ⟨rfl, claim_C9_empty_fans_skipped ⟨0, ⟨2025, 6, 10⟩, 1⟩ ⟨dbEmpty, 0, 0⟩ "n"
    ⟨"N", none, [], 1⟩ [] rfl⟩

/-! ## Claim C10 (Member.activate erases the manual-deactivation mark) -/

/-- C10: `Member.activate` sets `is_active` and clears
`manually_deactivated` in the same write, so any reactivation path
(including explicit admin reactivation) erases the manual mark; afterwards
the reconciliation loop's reactivation decision no longer skips the member:
auto-deactivating the activated member and seeing them reappear yields a
reactivation, whereas a manual deactivation still yields the skip. -/
theorem claim_C10_activate_clears_manual (m : Member) (db : DB) :
    Member.activate m = { m with is_active := true, manually_deactivated := false } ∧
    (Member.activate m).is_active = true ∧
    (Member.activate m).manually_deactivated = false ∧
    reactivationStep db (Member.deactivate m true) = none ∧
    reactivationStep db (Member.deactivate (Member.activate m) false) =
      some (updateMember db (Member.activate (Member.deactivate (Member.activate m) false)),
            Member.activate (Member.deactivate (Member.activate m) false)) := by
  refine ⟨rfl, rfl, rfl, ?_, ?_⟩ <;> simp [reactivationStep, Member.deactivate, Member.activate]

/-! ## Claim C5 (reset-detection threshold) -/

/-- The integer comparison used in the embedding of reset detection is
exactly the source's rational comparison against half the previous value. -/
lemma two_mul_lt_iff_lt_half (c p : Int) : 2 * c < p ↔ (c : ℚ) < (p : ℚ) * 0.5 := by
  rw [show (0.5 : ℚ) = 1/2 by norm_num]
  constructor
  · intro h
    have h2 : (2 : ℚ) * c < p := by exact_mod_cast h
    linarith
  · intro h
    have h2 : (2 : ℚ) * c < p := by linarith
    exact_mod_cast h2

/-- C5: reset detection fires iff some scraped member that also has a
stored previous total `P` reports a latest value `N` with
`0 < N < P * 0.5`; in particular `N = 0` or `N ≥ P * 0.5` never fires, and
nothing fires when the previous totals or the scraped data are empty. -/
theorem claim_C5_reset_threshold :
    (∀ sd : ScrapedData, detectMonthlyResetFromScraped sd [] = false) ∧
    (∀ prev : List (String × Int), detectMonthlyResetFromScraped [] prev = false) ∧
    (∀ (sd : ScrapedData) (prev : List (String × Int)),
      detectMonthlyResetFromScraped sd prev = true ↔
        ∃ e ∈ sd, ∃ P : Int, dictLookup prev e.1 = some P ∧
          0 < lastFans e.2 ∧ (lastFans e.2 : ℚ) < (P : ℚ) * 0.5) := by
  refine ⟨?_, ?_, ?_⟩
  · intro sd
    simp [detectMonthlyResetFromScraped]
  · intro prev
    unfold detectMonthlyResetFromScraped
    split_ifs <;> rfl
  · intro sd prev
    unfold detectMonthlyResetFromScraped
    by_cases hp : prev = []
    · subst hp
      simp [dictLookup]
    · by_cases hs : sd = []
      · subst hs
        simp [hp]
      · simp only [hp, hs, if_false]
        rw [List.any_eq_true]
        constructor
        · rintro ⟨e, he, hpred⟩
          refine ⟨e, he, ?_⟩
          rcases hL : dictLookup prev e.1 with _ | P
          · rw [hL] at hpred
            simp at hpred
          · rw [hL] at hpred
            simp only [Bool.and_eq_true, decide_eq_true_eq, gt_iff_lt] at hpred
            exact ⟨P, rfl, hpred.1, (two_mul_lt_iff_lt_half _ _).mp hpred.2⟩
        · rintro ⟨e, he, P, hL, h1, h2⟩
          refine ⟨e, he, ?_⟩
          rw [hL]
          simp only [Bool.and_eq_true, decide_eq_true_eq, gt_iff_lt]
          exact ⟨h1, (two_mul_lt_iff_lt_half _ _).mpr h2⟩

/-! ## Claim C6 (expected-progress summation) -/

lemma effectiveStart_ok {j c : Date} (hj : DateOK j) (hc : DateOK c) :
    DateOK (effectiveStart j c) := by
  unfold effectiveStart
  split_ifs with h
  · exact hj
  · obtain ⟨h1, h2, h3, h4, h5⟩ := hc
    exact ⟨h1, h2, h3, by norm_num, daysInMonth_pos _ _⟩

lemma ratDie_effectiveStart_le {j c : Date} (hc : DateOK c)
    (hle : dateLe j c = true) : ratDie (effectiveStart j c) ≤ ratDie c := by
  unfold effectiveStart
  split_ifs with h
  · obtain ⟨hy, hm⟩ := h
    simp only [dateLe, dateLt, Bool.or_eq_true, decide_eq_true_eq] at hle
    have hd : j.day ≤ c.day := by
      rcases hle with (hy2 | ⟨-, hm2⟩ | ⟨-, -, hd2⟩) | heq
      · omega
      · omega
      · omega
      · rw [heq]
    unfold ratDie
    rw [hy, hm]
    omega
  · have h1 := hc.2.2.2.1
    unfold ratDie
    dsimp only
    omega

lemma expectedFansLoop_eq_sum (db : DB) (club_id : Nat) :
    ∀ (n : Nat) (d : Date),
      expectedFansLoop db club_id n d =
        ∑ i in Finset.range n, getQuotaForDate db club_id (nextDay^[i] d) := by
  intro n
  induction n with
  | zero => intro d; simp [expectedFansLoop]
  | succ k ih =>
    intro d
    rw [Finset.sum_range_succ']
    simp only [Function.iterate_succ_apply, Function.iterate_zero_apply]
    unfold expectedFansLoop
    rw [ih (nextDay d)]
    ring

/-- C6: `calculate_expected_fans` returns exactly the sum, over every
calendar day from the effective start (the join date when it falls in the
current month, else the first of the month) through `current_date`
inclusive, of the schedule-resolved daily quota for that day. The second
and third conjuncts pin the summation index to consecutive calendar days:
the i-th summand is the day whose ordinal is i days after the start, and
the number of summands spans the interval up to `current_date` exactly. -/
theorem claim_C6_expected_progress_sum (db : DB) (club_id : Nat) (join cur : Date)
    (hj : DateOK join) (hc : DateOK cur) (hle : dateLe join cur = true) :
    calculateExpectedFans db club_id join cur =
      ∑ i in Finset.range ((ratDie cur - ratDie (effectiveStart join cur) + 1).toNat),
        getQuotaForDate db club_id (nextDay^[i] (effectiveStart join cur)) ∧
    (∀ i : Nat, ratDie (nextDay^[i] (effectiveStart join cur)) =
        ratDie (effectiveStart join cur) + i) ∧
    (((ratDie cur - ratDie (effectiveStart join cur) + 1).toNat : Int) =
        ratDie cur - ratDie (effectiveStart join cur) + 1) := by
  have hok := effectiveStart_ok hj hc
  have hmono := ratDie_effectiveStart_le hc hle
  refine ⟨?_, ?_, ?_⟩
  · unfold calculateExpectedFans
    exact expectedFansLoop_eq_sum db club_id _ _
  · intro i
    exact (nextDay_iterate_ratDie hok i).2
  · omega

/-- Witness for C6: the spec's worked example — club default 1000000, a
schedule entry of 2000000 effective June 15, member active since June 1,
queried June 20 — yields 14 * 1000000 + 6 * 2000000 = 26000000. -/
theorem claim_C6_witness :
    DateOK ⟨2025, 6, 1⟩ ∧ DateOK ⟨2025, 6, 20⟩ ∧
    dateLe ⟨2025, 6, 1⟩ ⟨2025, 6, 20⟩ = true ∧
    calculateExpectedFans dbMidMonthRaise 0 ⟨2025, 6, 1⟩ ⟨2025, 6, 20⟩ = 26000000 ∧
    (calculateExpectedFans dbMidMonthRaise 0 ⟨2025, 6, 1⟩ ⟨2025, 6, 20⟩ =
      ∑ i in Finset.range ((ratDie ⟨2025, 6, 20⟩ -
          ratDie (effectiveStart ⟨2025, 6, 1⟩ ⟨2025, 6, 20⟩) + 1).toNat),
        getQuotaForDate dbMidMonthRaise 0
          (nextDay^[i] (effectiveStart ⟨2025, 6, 1⟩ ⟨2025, 6, 20⟩))) :=
  ⟨by decide, by decide, by decide, by decide,
    (claim_C6_expected_progress_sum dbMidMonthRaise 0 ⟨2025, 6, 1⟩ ⟨2025, 6, 20⟩
      (by decide) (by decide) (by decide)).1⟩

/-! ## Claim C7 (no per-member failure isolation) -/

/-- C7 counterexample: with an empty roster and a scrape whose first entry
carries the out-of-range `join_day = 31` under an effective date of
March 1, the pass raises ValueError at the first entry and the second,
well-formed entry is never processed: no member row at all is created and
both counters stay 0 — one bad record aborts the whole club pass. -/
theorem claim_C7_counterexample :
    (processScrapedData dbEmpty 0 sdBadJoinDay ⟨2025, 3, 1⟩ 1).2 = some .valueError ∧
    (processScrapedData dbEmpty 0 sdBadJoinDay ⟨2025, 3, 1⟩ 1).1.db.members = [] ∧
    (processScrapedData dbEmpty 0 sdBadJoinDay ⟨2025, 3, 1⟩ 1).1.new_members = 0 ∧
    (processScrapedData dbEmpty 0 sdBadJoinDay ⟨2025, 3, 1⟩ 1).1.updated_members = 0 := by
  refine ⟨by decide, by decide, by decide, by decide⟩

/-- C7 amended: a per-member exception is not caught inside the loop — it
propagates to the caller. If the loop processes a prefix successfully and
the next entry raises, the pass stops there with that error: entries after
the failing one contribute nothing, whatever they are. -/
theorem claim_C7_error_aborts_loop (ctx : PassCtx) (x : String × ScrapedMember)
    (suf : ScrapedData) (err : PyErr) (pre : ScrapedData) (st st1 : LoopState)
    (h1 : processLoop ctx st pre = (st1, none))
    (h2 : processOne ctx st1 x = .error err) :
    processLoop ctx st (pre ++ x :: suf) = (st1, some err) := by
  induction pre generalizing st with
  | nil =>
    simp only [processLoop, Prod.mk.injEq] at h1
    obtain ⟨rfl, -⟩ := h1
    simp only [List.nil_append, processLoop]
    rw [h2]
  | cons e pre2 ih =>
    simp only [List.cons_append, processLoop] at h1 ⊢
    cases hpo : processOne ctx st e with
    | ok st2 =>
      rw [hpo] at h1
      exact ih st2 h1
    | error e2 =>
      rw [hpo] at h1
      have h3 : some e2 = (none : Option PyErr) := congrArg Prod.snd h1
      exact Option.noConfusion h3

/-- Witness for C7 amended: the bad entry of the counterexample aborts the
loop after an empty prefix, and the suffix entry is dropped. -/
theorem claim_C7_error_aborts_loop_witness :
    processLoop ⟨0, ⟨2025, 3, 1⟩, 1⟩ ⟨dbEmpty, 0, 0⟩ [] = (⟨dbEmpty, 0, 0⟩, none) ∧
    processOne ⟨0, ⟨2025, 3, 1⟩, 1⟩ ⟨dbEmpty, 0, 0⟩ ("a", ⟨"A", some "a", [5], 31⟩) =
      .error .valueError ∧
    processLoop ⟨0, ⟨2025, 3, 1⟩, 1⟩ ⟨dbEmpty, 0, 0⟩
        ([] ++ ("a", ⟨"A", some "a", [5], 31⟩) :: [("b", ⟨"B", some "b", [5], 1⟩)]) =
      (⟨dbEmpty, 0, 0⟩, some .valueError) :=
  ⟨rfl, by rfl,
    claim_C7_error_aborts_loop ⟨0, ⟨2025, 3, 1⟩, 1⟩ ("a", ⟨"A", some "a", [5], 31⟩)
      [("b", ⟨"B", some "b", [5], 1⟩)] .valueError [] ⟨dbEmpty, 0, 0⟩ ⟨dbEmpty, 0, 0⟩
      rfl (by rfl)⟩

/-! ## Claim C8 (lock acquisition) -/

/-- C8: one acquisition first purges exactly the lock rows older than the
30-minute window, then succeeds iff no row for the club survived; success
leaves the caller's row in the table, failure returns the plain value
`false` with the purged table unchanged, and the one-row-per-club
uniqueness is preserved. -/
theorem claim_C8_acquire_lock (locks : List LockRow) (club_id : Nat) (locked_by : String)
    (now : Int) (hnodup : (locks.map LockRow.club_id).Nodup) :
    AcquireLockSpec locks club_id locked_by now := by
  have hsub : (cleanupStaleLocks locks now).Sublist locks := List.filter_sublist locks
  have hnodupc : ((cleanupStaleLocks locks now).map LockRow.club_id).Nodup :=
    hnodup.sublist (hsub.map _)
  have hmem1 : ∀ l ∈ locks,
      l ∈ cleanupStaleLocks locks now ↔ ¬ l.locked_at < now - lockTimeoutMinutes := by
    intro l hl
    simp [cleanupStaleLocks, List.mem_filter, hl]
  cases hany : (cleanupStaleLocks locks now).any (fun l => l.club_id == club_id) with
  | true =>
    have hres : acquireLock locks club_id locked_by now = (cleanupStaleLocks locks now, false) := by
      simp [acquireLock, hany]
    rw [List.any_eq_true] at hany
    obtain ⟨l0, hl0, hbeq⟩ := hany
    simp only [beq_iff_eq] at hbeq
    refine ⟨hmem1, ?_, ?_, ?_, ?_⟩
    · rw [hres]
      constructor
      · intro h
        exact absurd h (by simp)
      · intro h
        exact absurd hbeq (h l0 hl0)
    · rw [hres]
      intro h
      exact absurd h (by simp)
    · rw [hres]
      intro _
      rfl
    · rw [hres]
      exact hnodupc
  | false =>
    have hres : acquireLock locks club_id locked_by now =
        (cleanupStaleLocks locks now ++ [⟨club_id, now, locked_by⟩], true) := by
      simp [acquireLock, hany]
    rw [List.any_eq_false] at hany
    have hne : ∀ l ∈ cleanupStaleLocks locks now, l.club_id ≠ club_id := by
      intro l hl
      have := hany l hl
      simpa using this
    refine ⟨hmem1, ?_, ?_, ?_, ?_⟩
    · rw [hres]
      exact ⟨fun _ => hne, fun _ => rfl⟩
    · rw [hres]
      intro _
      simp
    · rw [hres]
      intro h
      exact absurd h (by simp)
    · rw [hres]
      simp only [List.map_append, List.map_cons, List.map_nil]
      rw [List.nodup_append]
      refine ⟨hnodupc, List.nodup_singleton _, ?_⟩
      intro a ha hb
      simp only [List.mem_singleton] at hb
      subst hb
      rw [List.mem_map] at ha
      obtain ⟨l, hl, hid⟩ := ha
      exact hne l hl hid

/-- Witness for C8: a stale foreign lock is purged and the acquisition for
club 2 succeeds. -/
theorem claim_C8_acquire_lock_witness :
    (([⟨1, 0, "x"⟩] : List LockRow).map LockRow.club_id).Nodup ∧
    AcquireLockSpec [⟨1, 0, "x"⟩] 2 "y" 40 :=
  ⟨by decide, claim_C8_acquire_lock [⟨1, 0, "x"⟩] 2 "y" 40 (by decide)⟩

/-! ## Claim C4 (idempotence of a re-run for the same effective date) -/

lemma mem_insertByDateDesc {x r : QuotaHistoryRow} :
    ∀ {l : List QuotaHistoryRow}, x ∈ insertByDateDesc r l ↔ x = r ∨ x ∈ l := by
  intro l
  induction l with
  | nil => simp [insertByDateDesc]
  | cons a t ih =>
    unfold insertByDateDesc
    split_ifs with h
    · simp [List.mem_cons]
    · simp only [List.mem_cons, ih]
      tauto

lemma mem_sortByDateDesc {x : QuotaHistoryRow} :
    ∀ {l : List QuotaHistoryRow}, x ∈ sortByDateDesc l ↔ x ∈ l := by
  intro l
  induction l with
  | nil => simp [sortByDateDesc]
  | cons a t ih =>
    show x ∈ insertByDateDesc a (sortByDateDesc t) ↔ _
    rw [mem_insertByDateDesc]
    simp [ih, List.mem_cons]

lemma sortByDateDesc_append_max {r : QuotaHistoryRow} :
    ∀ {l : List QuotaHistoryRow}, (∀ x ∈ l, dateLt x.date r.date = true) →
      sortByDateDesc (l ++ [r]) = r :: sortByDateDesc l := by
  intro l
  induction l with
  | nil => intro _; rfl
  | cons a t ih =>
    intro h
    have ha := h a (List.mem_cons_self a t)
    have ht : ∀ x ∈ t, dateLt x.date r.date = true :=
      fun x hx => h x (List.mem_cons_of_mem a hx)
    show insertByDateDesc a (sortByDateDesc (t ++ [r])) =
      r :: insertByDateDesc a (sortByDateDesc t)
    rw [ih ht]
    show (if dateLt r.date a.date = true then a :: r :: sortByDateDesc t
      else r :: insertByDateDesc a (sortByDateDesc t)) =
      r :: insertByDateDesc a (sortByDateDesc t)
    rw [dateLt_asymm ha]
    simp

lemma leadNegCount_take : ∀ (l : List QuotaHistoryRow) (k : Nat),
    leadNegCount (l.take k) = min (leadNegCount l) k := by
  intro l
  induction l with
  | nil => intro k; simp [leadNegCount]
  | cons a t ih =>
    intro k
    cases k with
    | zero => simp [leadNegCount]
    | succ k2 =>
      simp only [List.take_succ_cons, leadNegCount]
      split_ifs with h
      · rw [ih k2]
        omega
      · omega

lemma upsertHistory_append {db : DB} {row : QuotaHistoryRow}
    (h : ∀ x ∈ db.history, x.member_id = row.member_id → x.date ≠ row.date) :
    (upsertHistory db row).history = db.history ++ [row] := by
  have hany : db.history.any
      (fun x => x.member_id == row.member_id && x.date == row.date) = false := by
    rw [List.any_eq_false]
    intro x hx
    simp only [Bool.and_eq_true, beq_iff_eq, not_and]
    intro hm hd
    exact h x hx hm hd
  unfold upsertHistory
  simp [hany]

/-- C4 counterexample: the state has ten consecutive behind days stored for
the member; a first reconciliation run for June 11 records
`consecutive_days_behind = 11`, but an identical second run for the same
date records 10 — the ledger rows of the two runs are not identical,
because the second run's 10-row window includes the June 11 row, which the
date filter then removes. -/
theorem claim_C4_counterexample :
    ((processScrapedData dbTenBehind 0 sdOneMember ⟨2025, 6, 11⟩ 1).1.db.history.find?
        (fun h => h.member_id == 1 && h.date == ⟨2025, 6, 11⟩)).map
        QuotaHistoryRow.days_behind = some 11 ∧
    ((processScrapedData (processScrapedData dbTenBehind 0 sdOneMember
          ⟨2025, 6, 11⟩ 1).1.db 0 sdOneMember ⟨2025, 6, 11⟩ 1).1.db.history.find?
        (fun h => h.member_id == 1 && h.date == ⟨2025, 6, 11⟩)).map
        QuotaHistoryRow.days_behind = some 10 ∧
    (processScrapedData (processScrapedData dbTenBehind 0 sdOneMember
        ⟨2025, 6, 11⟩ 1).1.db 0 sdOneMember ⟨2025, 6, 11⟩ 1).1.db.history ≠
      (processScrapedData dbTenBehind 0 sdOneMember ⟨2025, 6, 11⟩ 1).1.db.history := by
  refine ⟨by decide, by decide, by decide⟩

/-- C4 amended: re-running for the same member and effective date upserts
(identical row keys, no duplicate) and recomputes the streak as the
minimum of the first run's value and 10: the two runs agree exactly when
the member had at most nine consecutive behind entries immediately before
the effective date, and with ten or more the second run records one less. -/
theorem claim_C4_rerun_upsert_and_streak (db : DB) (mid club_id : Nat) (cf ef ds : Int)
    (cur : Date) (row2 : QuotaHistoryRow)
    (hbefore : ∀ h ∈ db.history, h.member_id = mid → dateLt h.date cur = true)
    (hm2 : row2.member_id = mid) (hd2 : row2.date = cur) :
    RerunDaysBehindSpec db mid club_id cf ef ds cur row2 := by
  unfold RerunDaysBehindSpec
  set c1 := calculateDaysBehind db mid ds cur with hc1
  set row1 : QuotaHistoryRow := ⟨mid, club_id, cur, cf, ef, ds, c1⟩ with hrow1
  have hne : ∀ x ∈ db.history, x.member_id = row1.member_id → x.date ≠ row1.date := by
    intro x hx hm
    exact dateLt_ne (hbefore x hx hm)
  have happ : (upsertHistory db row1).history = db.history ++ [row1] :=
    upsertHistory_append hne
  set P := db.history.filter (fun h => h.member_id == mid) with hP
  have hfl : (db.history ++ [row1]).filter (fun h => h.member_id == (mid : Nat)) =
      P ++ [row1] := by
    rw [List.filter_append]
    simp [hP, hrow1]
  have hPlt0 : ∀ x ∈ P, dateLt x.date row1.date = true := by
    intro x hx
    rw [hP, List.mem_filter] at hx
    obtain ⟨hx1, hx2⟩ := hx
    simp only [beq_iff_eq] at hx2
    exact hbefore x hx1 hx2
  set S := sortByDateDesc P with hS
  have hsort : sortByDateDesc (P ++ [row1]) = row1 :: S :=
    sortByDateDesc_append_max hPlt0
  have hSlt : ∀ x ∈ S, dateLt x.date cur = true := by
    intro x hx
    rw [hS, mem_sortByDateDesc] at hx
    exact hPlt0 x hx
  have hlast2 : getLastNDays (upsertHistory db row1) mid 10 = row1 :: S.take 9 := by
    unfold getLastNDays
    rw [happ, hfl, hsort]
    rfl
  have hlast1 : getLastNDays db mid 10 = S.take 10 := by
    unfold getLastNDays
    rw [← hP, ← hS]
  -- the second-upsert key preservation holds for any deficit value
  have hkeys : (upsertHistory (upsertHistory db row1) row2).history.map
      (fun h => (h.member_id, h.date)) =
      (upsertHistory db row1).history.map (fun h => (h.member_id, h.date)) := by
    have hin : (upsertHistory db row1).history.any
        (fun x => x.member_id == row2.member_id && x.date == row2.date) = true := by
      rw [List.any_eq_true]
      refine ⟨row1, ?_, ?_⟩
      · rw [happ]
        simp
      · simp [hrow1, hm2, hd2]
    conv =>
      lhs
      rw [upsertHistory]
    rw [hin]
    simp only [if_true, List.map_map]
    apply List.map_congr_left
    intro h _
    simp only [Function.comp_apply]
    split_ifs <;> rfl
  refine ⟨?_, hkeys⟩
  by_cases hds : ds ≥ 0
  · have h0 : c1 = 0 := by
      rw [hc1]
      unfold calculateDaysBehind
      rw [if_pos hds]
    unfold calculateDaysBehind
    rw [if_pos hds, h0]
    decide
  · have hc2 : calculateDaysBehind (upsertHistory db row1) mid ds cur =
        1 + (leadNegCount (S.take 9) : Int) := by
      unfold calculateDaysBehind
      rw [if_neg hds, hlast2]
      rw [if_neg (by simp)]
      rw [List.filter_cons]
      have : dateLt row1.date cur = false := dateLt_irrefl cur
      rw [this]
      simp only [Bool.false_eq_true, if_false]
      rw [List.filter_eq_self.mpr (fun x hx => hSlt x (List.take_subset 9 S hx))]
    rcases hScase : S with _ | ⟨s0, Srest⟩
    · have hc1v : c1 = 1 := by
        rw [hc1]
        unfold calculateDaysBehind
        rw [if_neg hds, hlast1, hScase]
        simp
      rw [hc2, hScase, hc1v]
      simp [leadNegCount]
    · have htne : S.take 10 ≠ [] := by
        rw [hScase]
        simp
      have hc1v : c1 = 1 + (leadNegCount (S.take 10) : Int) := by
        rw [hc1]
        unfold calculateDaysBehind
        rw [if_neg hds, hlast1, if_neg htne]
        rw [List.filter_eq_self.mpr (fun x hx => hSlt x (List.take_subset 10 S hx))]
      rw [hc2, hc1v, leadNegCount_take, leadNegCount_take]
      push_cast
      omega

/-- Witness for C4 amended at the ten-behind-days state: the first run
computes 11, the re-run computes min 11 10 = 10, and the keys of the ledger
are unchanged by the overwriting upsert. -/
theorem claim_C4_rerun_witness :
    (∀ h ∈ dbTenBehind.history, h.member_id = 1 → dateLt h.date ⟨2025, 6, 11⟩ = true) ∧
    RerunDaysBehindSpec dbTenBehind 1 0 5 11000000 (-10999995) ⟨2025, 6, 11⟩
      ⟨1, 0, ⟨2025, 6, 11⟩, 5, 11000000, -10999995, 10⟩ :=
  ⟨by decide,
    claim_C4_rerun_upsert_and_streak dbTenBehind 1 0 5 11000000 (-10999995) ⟨2025, 6, 11⟩
      ⟨1, 0, ⟨2025, 6, 11⟩, 5, 11000000, -10999995, 10⟩ (by decide) (by decide) (by decide)⟩

/-! ## Claim C1 (manual deactivation stickiness) -/

lemma mem_updateMember {db : DB} {m x : Member} (hx : x ∈ (updateMember db m).members) :
    x = m ∨ x ∈ db.members := by
  unfold updateMember at hx
  simp only [List.mem_map] at hx
  obtain ⟨y, hy, hxy⟩ := hx
  by_cases h : y.member_id = m.member_id
  · rw [if_pos h] at hxy
    left
    exact hxy.symm
  · rw [if_neg h] at hxy
    right
    rw [← hxy]
    exact hy

lemma manualSafe_updateMember {db : DB} {mid : Nat} {m : Member} (h : ManualSafe db mid)
    (hm : m.member_id = mid → m.manually_deactivated = true ∧ m.is_active = false) :
    ManualSafe (updateMember db m) mid := by
  refine ⟨?_, h.2⟩
  intro x hx hxid
  rcases mem_updateMember hx with rfl | hxin
  · exact hm hxid
  · exact h.1 x hxin hxid

lemma upsertHistory_members (db : DB) (row : QuotaHistoryRow) :
    (upsertHistory db row).members = db.members ∧
    (upsertHistory db row).nextMemberId = db.nextMemberId := by
  unfold upsertHistory
  split_ifs <;> exact ⟨rfl, rfl⟩

lemma manualSafe_upsertHistory {db : DB} {mid : Nat} (h : ManualSafe db mid)
    (row : QuotaHistoryRow) : ManualSafe (upsertHistory db row) mid := by
  obtain ⟨h1, h2⟩ := upsertHistory_members db row
  unfold ManualSafe ManualFlagsHold
  rw [h1, h2]
  exact h

lemma manualSafe_tail {ctx : PassCtx} {db : DB} {mid : Nat} {m : Member} {c : Int}
    (h : ManualSafe db mid)
    (hm : m.member_id = mid → m.manually_deactivated = true ∧ m.is_active = false) :
    ManualSafe (processMemberTail ctx db m c) mid := by
  unfold processMemberTail
  exact manualSafe_upsertHistory
    (@manualSafe_updateMember db mid { m with last_seen := ctx.current_date } h
      (fun hid => hm hid)) _

lemma manualSafe_createMember {db : DB} {mid : Nat} (h : ManualSafe db mid)
    (club_id : Nat) (name : String) (jd : Date) (tid : Option String) :
    ManualSafe (createMember db club_id name jd tid).1 mid ∧
    (createMember db club_id name jd tid).2.member_id ≠ mid := by
  obtain ⟨h1, h2⟩ := h
  refine ⟨⟨?_, ?_⟩, ?_⟩
  · intro x hx hxid
    unfold createMember at hx
    simp only [List.mem_append, List.mem_singleton] at hx
    rcases hx with hx | rfl
    · exact h1 x hx hxid
    · exfalso
      dsimp at hxid
      omega
  · unfold createMember
    dsimp
    omega
  · unfold createMember
    dsimp
    omega

lemma manualSafe_processNewMember {ctx : PassCtx} {st : LoopState} {md : ScrapedMember}
    {c : Int} {st1 : LoopState} {mid : Nat} (h : ManualSafe st.db mid)
    (hok : processNewMember ctx st md c = .ok st1) : ManualSafe st1.db mid := by
  unfold processNewMember at hok
  split at hok
  · exact Except.noConfusion hok
  · cases hok
    obtain ⟨hQ, hne⟩ := manualSafe_createMember h ctx.club_id md.name _ md.trainer_id
    exact manualSafe_tail hQ (fun hid => absurd hid hne)

lemma manualSafe_processFoundMember {ctx : PassCtx} {st : LoopState} {c : Int}
    {m1 : Member} {db1 : DB} {st1 : LoopState} {mid : Nat} (h : ManualSafe db1 mid)
    (hflags : m1.member_id = mid → m1.manually_deactivated = true ∧ m1.is_active = false)
    (hok : processFoundMember ctx st c m1 db1 = .ok st1) : ManualSafe st1.db mid := by
  unfold processFoundMember at hok
  split at hok
  · cases hok
    exact manualSafe_tail h hflags
  · split at hok
    · cases hok
      exact h
    · rename_i r hre
      cases hok
      unfold reactivationStep at hre
      split at hre
      · exact Option.noConfusion hre
      · rename_i hman
        cases hre
        have hne : m1.member_id ≠ mid := by
          intro hid
          exact hman ((hflags hid).1)
        refine manualSafe_tail (manualSafe_updateMember h ?_) ?_
        · intro hid
          exact absurd hid hne
        · intro hid
          exact absurd hid hne

lemma manualSafe_processExistingMember {ctx : PassCtx} {st : LoopState} {md : ScrapedMember}
    {c : Int} {m0 : Member} {st1 : LoopState} {mid : Nat} (h : ManualSafe st.db mid)
    (hm0 : m0 ∈ st.db.members)
    (hok : processExistingMember ctx st md c m0 = .ok st1) : ManualSafe st1.db mid := by
  have hflags : m0.member_id = mid →
      m0.manually_deactivated = true ∧ m0.is_active = false :=
    fun hid => h.1 m0 hm0 hid
  unfold processExistingMember at hok
  split at hok
  · exact @manualSafe_processFoundMember ctx st c { m0 with trainer_name := md.name }
      (updateMember st.db { m0 with trainer_name := md.name }) st1 mid
      (@manualSafe_updateMember st.db mid { m0 with trainer_name := md.name } h
        (fun hid => hflags hid))
      (fun hid => hflags hid) hok
  · exact manualSafe_processFoundMember h hflags hok

lemma manualSafe_processOne {ctx : PassCtx} {st : LoopState} {e : String × ScrapedMember}
    {st1 : LoopState} {mid : Nat} (h : ManualSafe st.db mid)
    (hok : processOne ctx st e = .ok st1) : ManualSafe st1.db mid := by
  unfold processOne at hok
  split at hok
  · cases hok
    exact h
  · split at hok
    · exact Except.noConfusion hok
    · split at hok
      · exact manualSafe_processNewMember h hok
      · rename_i m0 hfind
        have hm0 : m0 ∈ st.db.members := by
          unfold lookupMember at hfind
          split at hfind
          · split at hfind
            · unfold getByName at hfind
              exact List.mem_of_find?_eq_some hfind
            · unfold getByTrainerId at hfind
              exact List.mem_of_find?_eq_some hfind
          · unfold getByName at hfind
            exact List.mem_of_find?_eq_some hfind
        exact manualSafe_processExistingMember h hm0 hok

lemma manualSafe_processLoop {ctx : PassCtx} {mid : Nat} :
    ∀ (sd : ScrapedData) (st : LoopState), ManualSafe st.db mid →
      ManualSafe ((processLoop ctx st sd).1).db mid := by
  intro sd
  induction sd with
  | nil => intro st h; exact h
  | cons e rest ih =>
    intro st h
    simp only [processLoop]
    cases hpo : processOne ctx st e with
    | ok st2 => exact ih st2 (manualSafe_processOne h hpo)
    | error err => exact h

lemma manualSafe_autoDeactivate_fold {mid : Nat} :
    ∀ (L : List Member) (acc : DB) (keys : List String),
      (∀ m ∈ L, m.member_id ≠ mid) → ManualSafe acc mid →
      ManualSafe (L.foldl (fun acc2 m =>
        if keys.contains (memberKeyOf m) then acc2
        else updateMember acc2 (m.deactivate false)) acc) mid := by
  intro L
  induction L with
  | nil => intro acc keys _ h; exact h
  | cons m L2 ih =>
    intro acc keys hne h
    simp only [List.foldl_cons]
    apply ih _ _ (fun x hx => hne x (List.mem_cons_of_mem m hx))
    by_cases hk : keys.contains (memberKeyOf m)
    · rw [if_pos hk]
      exact h
    · rw [if_neg hk]
      exact manualSafe_updateMember h
        (fun hid => absurd hid (hne m (List.mem_cons_self m L2)))

lemma manualSafe_autoDeactivate {db : DB} {mid : Nat} {club_id : Nat} {keys : List String}
    (h : ManualSafe db mid) : ManualSafe (autoDeactivateMissing db club_id keys) mid := by
  unfold autoDeactivateMissing
  apply manualSafe_autoDeactivate_fold _ _ _ ?_ h
  intro m hm hid
  unfold getAllActive at hm
  rw [List.mem_filter] at hm
  obtain ⟨hmem, hcond⟩ := hm
  simp only [Bool.and_eq_true, beq_iff_eq] at hcond
  have hflags := h.1 m hmem hid
  rw [hflags.2] at hcond
  exact Bool.false_ne_true hcond.2

/-- C1 counterexample: member 2 starts manually deactivated and inactive;
the scrape triggers a period reset (member 1's total collapsed from 1000
to 100), the reset purge clears member 2's `manually_deactivated` flag,
and the same pass then reactivates them when they appear in the scrape:
the pass both cleared the flag and set `is_active` to true. -/
theorem claim_C1_counterexample :
    ((dbResetScenario.members.find? (fun m => m.member_id == 2)).map
        (fun m => (m.is_active, m.manually_deactivated)) = some (false, true)) ∧
    detectMonthlyResetFromScraped sdResetScenario
        (getPreviousCumulativeTotals dbResetScenario 0) = true ∧
    (((processScrapedData dbResetScenario 0 sdResetScenario ⟨2025, 6, 10⟩ 1).1.db.members.find?
        (fun m => m.member_id == 2)).map
        (fun m => (m.is_active, m.manually_deactivated)) = some (true, false)) := by
  refine ⟨by decide, by decide, by decide⟩

/-- C1 amended: in a reconciliation pass in which no period reset is
detected, a manually deactivated (hence inactive) member is never
reactivated and never has the flag cleared — reappearance in the scrape is
skipped. (A pass that does detect a reset clears the flag and may
reactivate the member, as the counterexample shows.) -/
theorem claim_C1_manual_sticky_without_reset (db : DB) (club_id : Nat) (sd : ScrapedData)
    (cur : Date) (cday : Int) (mid : Nat)
    (hreset : detectMonthlyResetFromScraped sd (getPreviousCumulativeTotals db club_id) = false)
    (hman : ManualFlagsHold db mid) (hfresh : mid < db.nextMemberId) :
    ManualFlagsHold (processScrapedData db club_id sd cur cday).1.db mid := by
  unfold processScrapedData
  simp only [hreset, Bool.false_eq_true, if_false]
  exact (manualSafe_processLoop sd _ (manualSafe_autoDeactivate ⟨hman, hfresh⟩)).1

/-- Witness for C1 amended: a pass over a state holding only the manually
deactivated member, who reappears in the scrape; no reset is detected and
the member stays deactivated with the flag set. -/
theorem claim_C1_witness :
    detectMonthlyResetFromScraped sdManualOnly
        (getPreviousCumulativeTotals dbManualOnly 0) = false ∧
    ManualFlagsHold dbManualOnly 2 ∧ 2 < dbManualOnly.nextMemberId ∧
    ManualFlagsHold (processScrapedData dbManualOnly 0 sdManualOnly ⟨2025, 7, 1⟩ 1).1.db 2 :=
  ⟨by decide, by decide, by decide,
    claim_C1_manual_sticky_without_reset dbManualOnly 0 sdManualOnly ⟨2025, 7, 1⟩ 1 2
      (by decide) (by decide) (by decide)⟩

end UmaCore
